import Mathlib

/-!
Verification development for the seekdb-go client filter-compilation and
hybrid-search request-building engine.

The descriptor-path functions (buildDocumentQuery, buildMetadataFilterConditions,
buildQueryExpression, buildKNNExpression, buildSearchParm) and the Get SQL
assembly (collectionGet) are shallow embeddings of the Go code in
client_query.go.  Go map-typed JSON values are modelled as association lists
(which fixes one deterministic iteration order, standing in for the Go map
order where the claims are order-insensitive or the inputs are single-key
maps); Go interface values are modelled by the JVal type; Go float32 vector
elements (never inspected, only counted) are modelled by Int.

The SQL predicate compiler (BuildMetadataFilter / BuildDocumentFilter) is not
part of the provided sources (only its callers are); those definitions are
modelled from the specification and marked as such in doc comments.
-/

namespace SeekDB

/-- JSON-like dynamic value, the embedding of the Go interface value universe
used by the filter language: strings, integers, arrays and objects
(association lists standing in for Go maps). -/
inductive JVal where
  | str (s : String)
  | int (n : Int)
  | arr (xs : List JVal)
  | obj (fields : List (String × JVal))

/-- A filter mapping, the embedding of the Go Filter map type. -/
abbrev Filter := List (String × JVal)

mutual

/-- Structural size of a JVal, used as recursion fuel. -/
def jsize : JVal → Nat
  | .str _ => 1
  | .int _ => 1
  | .arr xs => 1 + jlsize xs
  | .obj fs => 1 + josize fs

/-- Structural size of a JVal list. -/
def jlsize : List JVal → Nat
  | [] => 0
  | x :: xs => 1 + jsize x + jlsize xs

/-- Structural size of a JVal association list. -/
def josize : List (String × JVal) → Nat
  | [] => 0
  | (_, v) :: xs => 1 + jsize v + josize xs

end

mutual

/-- Boolean structural equality on JVal. -/
def jeq : JVal → JVal → Bool
  | .str a, .str b => a == b
  | .int a, .int b => a == b
  | .arr a, .arr b => jeqL a b
  | .obj a, .obj b => jeqO a b
  | _, _ => false

/-- Boolean structural equality on JVal lists. -/
def jeqL : List JVal → List JVal → Bool
  | [], [] => true
  | x :: xs, y :: ys => jeq x y && jeqL xs ys
  | _, _ => false

/-- Boolean structural equality on JVal association lists. -/
def jeqO : List (String × JVal) → List (String × JVal) → Bool
  | [], [] => true
  | (k, v) :: xs, (k2, v2) :: ys => k == k2 && jeq v v2 && jeqO xs ys
  | _, _ => false

end

/-- Go map lookup on an association list (first matching key wins). -/
def lookupF (f : List (String × JVal)) (k : String) : Option JVal :=
  match f.find? (fun p => p.1 == k) with
  | some p => some p.2
  | none => none

/-- Embedding of Go strings.Join. -/
def joinSep (sep : String) : List String → String
  | [] => ""
  | [x] => x
  | x :: xs => x ++ sep ++ joinSep sep xs

/-- Number of question-mark characters in a string (SQL bind placeholders,
assuming the surrounding fragments contain no literal question marks). -/
def countQ (s : String) : Nat :=
  s.data.countP (fun c => c == '?')

/-- The JSON_EXTRACT field addressing string built by
buildMetadataFilterConditions in client_query.go. -/
def metaFieldName (key : String) : String :=
  "(JSON_EXTRACT(metadata, \x27$." ++ key ++ "\x27))"

/-- Accumulator for the operator loop of the field-condition branch of
buildMetadataFilterConditions: conditions already appended to result,
the rangeConditions map, and the termValue variable. -/
structure FieldAcc where
  emitted : List JVal
  ranges : List (String × JVal)
  term : Option JVal

/-- One iteration of the operator switch in buildMetadataFilterConditions
(client_query.go lines 563-616). -/
def fieldStep (fieldName : String) (acc : FieldAcc) (p : String × JVal) : FieldAcc :=
  match p.1 with
  | "$eq" => { acc with term := some p.2 }
  | "$ne" =>
    { acc with emitted := acc.emitted ++
        [JVal.obj [("bool", JVal.obj [("must_not",
          JVal.arr [JVal.obj [("term", JVal.obj [(fieldName, p.2)])]])])]] }
  | "$lt" => { acc with ranges := acc.ranges ++ [("lt", p.2)] }
  | "$lte" => { acc with ranges := acc.ranges ++ [("lte", p.2)] }
  | "$gt" => { acc with ranges := acc.ranges ++ [("gt", p.2)] }
  | "$gte" => { acc with ranges := acc.ranges ++ [("gte", p.2)] }
  | "$in" =>
    match p.2 with
    | JVal.arr vs =>
      let terms := vs.map (fun v => JVal.obj [("term", JVal.obj [(fieldName, v)])])
      if terms.isEmpty then acc
      else { acc with emitted := acc.emitted ++
              [JVal.obj [("bool", JVal.obj [("should", JVal.arr terms)])]] }
    | _ => acc
  | "$nin" =>
    match p.2 with
    | JVal.arr vs =>
      let terms := vs.map (fun v => JVal.obj [("term", JVal.obj [(fieldName, v)])])
      if terms.isEmpty then acc
      else { acc with emitted := acc.emitted ++
              [JVal.obj [("bool", JVal.obj [("must_not", JVal.arr terms)])]] }
    | _ => acc
  | _ => acc

/-- Field-condition branch of buildMetadataFilterConditions
(client_query.go lines 541-633): one key/value entry of the condition map. -/
def fieldConds (p : String × JVal) : List JVal :=
  let fieldName := metaFieldName p.1
  match p.2 with
  | JVal.obj valueMap =>
    let acc := valueMap.foldl (fieldStep fieldName) ⟨[], [], none⟩
    acc.emitted ++
      (if !acc.ranges.isEmpty then
        [JVal.obj [("range", JVal.obj [(fieldName, JVal.obj acc.ranges)])]]
      else
        match acc.term with
        | some t => [JVal.obj [("term", JVal.obj [(fieldName, t)])]]
        | none => [])
  | v => [JVal.obj [("term", JVal.obj [(fieldName, v)])]]

/-- Body of buildMetadataFilterConditions (client_query.go lines 478-636),
parameterized over the recursive call. -/
def bmfcCore (recurse : Filter → List JVal) (condition : Filter) : List JVal :=
  if condition.isEmpty then [] else
  match lookupF condition "$and" with
  | some v =>
    match v with
    | JVal.arr conds =>
      let mustConditions := conds.flatMap (fun c =>
        match c with
        | JVal.obj m => recurse m
        | _ => [])
      if mustConditions.isEmpty then []
      else [JVal.obj [("bool", JVal.obj [("must", JVal.arr mustConditions)])]]
    | _ => []
  | none =>
  match lookupF condition "$or" with
  | some v =>
    match v with
    | JVal.arr conds =>
      let shouldConditions := conds.flatMap (fun c =>
        match c with
        | JVal.obj m => recurse m
        | _ => [])
      if shouldConditions.isEmpty then []
      else [JVal.obj [("bool", JVal.obj [("should", JVal.arr shouldConditions)])]]
    | _ => []
  | none =>
  match lookupF condition "$not" with
  | some v =>
    match v with
    | JVal.obj m =>
      let notFilters := recurse m
      if notFilters.isEmpty then []
      else [JVal.obj [("bool", JVal.obj [("must_not", JVal.arr notFilters)])]]
    | _ => []
  | none =>
    condition.flatMap (fun p =>
      if p.1 == "$and" || p.1 == "$or" || p.1 == "$not" then [] else fieldConds p)

/-- Fuel-indexed recursion for buildMetadataFilterConditions.  The fuel is a
termination device only: the entry point supplies fuel equal to the josize of
the input, and every recursive call descends strictly into the input value
(the josize shrinks by at least two per level while the fuel shrinks by
exactly one), so the zero-fuel branch is unreachable from the entry point. -/
def bmfcFuel : Nat → Filter → List JVal
  | 0, _ => []
  | n + 1, condition => bmfcCore (bmfcFuel n) condition

/-- Embedding of buildMetadataFilterConditions (client_query.go lines 478-636). -/
def buildMetadataFilterConditions (condition : Filter) : List JVal :=
  bmfcFuel (josize condition) condition

/-- Embedding of buildMetadataFilterForSearchParm (client_query.go lines 470-475). -/
def buildMetadataFilterForSearchParm (whereF : Filter) : List JVal :=
  if whereF.isEmpty then [] else buildMetadataFilterConditions whereF

/-- The query_string document built by buildDocumentQuery. -/
def queryStringDoc (query : JVal) : JVal :=
  JVal.obj [("query_string", JVal.obj
    [("fields", JVal.arr [JVal.str "document"]), ("query", query)])]

/-- The contains-string extraction loop shared by the $and and $or branches of
buildDocumentQuery: keeps, in order, the string values found under a
$contains key of each object element. -/
def extractContains (conds : List JVal) : List String :=
  conds.filterMap (fun c =>
    match c with
    | JVal.obj m =>
      match lookupF m "$contains" with
      | some (JVal.str s) => some s
      | _ => none
    | _ => none)

/-- Embedding of buildDocumentQuery (client_query.go lines 403-467).  Note the
sequential fallthrough: the $contains key is tried first, then $and, then $or;
any other shape (in particular a $regex key) falls through to nil. -/
def buildDocumentQuery (whereDocument : Filter) : Option JVal :=
  if whereDocument.isEmpty then none else
  match lookupF whereDocument "$contains" with
  | some contains => some (queryStringDoc contains)
  | none =>
    let andResult : Option JVal :=
      match lookupF whereDocument "$and" with
      | some (JVal.arr conds) =>
        let containsQueries := extractContains conds
        if containsQueries.isEmpty then none
        else some (queryStringDoc (JVal.str (joinSep " " containsQueries)))
      | _ => none
    match andResult with
    | some r => some r
    | none =>
      match lookupF whereDocument "$or" with
      | some (JVal.arr conds) =>
        let containsQueries := extractContains conds
        if containsQueries.isEmpty then none
        else some (queryStringDoc (JVal.str (joinSep " OR " containsQueries)))
      | _ => none

/-- Embedding of HybridSearchQuery (query_texts are not part of the query
section; only the filters and size matter to the builder). -/
structure HybridSearchQuery where
  whereDocument : Filter
  whereMeta : Filter
  nResults : Int

/-- Embedding of HybridSearchKNN.  Vector elements are modelled by Int (the
code never inspects them, only their count); a Go nil slice and an empty
slice are both modelled by the empty list, faithful to the len-based tests. -/
structure HybridSearchKNN where
  queryTexts : List String
  queryEmbeddings : List (List Int)
  whereMeta : Filter
  nResults : Int

/-- Embedding of RRFConfig. -/
structure RRFConfig where
  k : Int

/-- Embedding of HybridSearchRank. -/
structure HybridSearchRank where
  rrf : Option RRFConfig

/-- Embedding of the embedding collaborator: Embed(texts) yields vectors or an
error message. -/
def EmbedFunc := List String → Except String (List (List Int))

/-- Errors surfaced by the embedded builders.  embeddingFunctionRequired
models every error e with errors.Is(e, ErrEmbeddingFunctionRequired);
invalidFilter models ErrInvalidFilter-style caller-input defects. -/
inductive QErr where
  | embeddingFunctionRequired
  | embedFailed (msg : String)
  | knnRequiresInput
  | invalidFilter (msg : String)
deriving DecidableEq

/-- Embedding of buildQueryExpression (client_query.go lines 346-400). -/
def buildQueryExpression (query : HybridSearchQuery) : Option JVal :=
  let whereDocument := query.whereDocument
  let whereMeta := query.whereMeta
  let case1 : Option JVal :=
    if whereDocument.isEmpty && !whereMeta.isEmpty then
      let filterConditions := buildMetadataFilterForSearchParm whereMeta
      if !filterConditions.isEmpty then
        match filterConditions with
        | [filterCond] =>
          match filterCond with
          | JVal.obj m =>
            if (lookupF m "range").isSome then some filterCond
            else if (lookupF m "term").isSome then some filterCond
            else some (JVal.obj [("bool", JVal.obj [("filter", JVal.arr filterConditions)])])
          | _ => some (JVal.obj [("bool", JVal.obj [("filter", JVal.arr filterConditions)])])
        | _ => some (JVal.obj [("bool", JVal.obj [("filter", JVal.arr filterConditions)])])
      else none
    else none
  match case1 with
  | some r => some r
  | none =>
    if !whereDocument.isEmpty then
      match buildDocumentQuery whereDocument with
      | some docQuery =>
        let filterConditions := buildMetadataFilterForSearchParm whereMeta
        if !filterConditions.isEmpty then
          some (JVal.obj [("bool", JVal.obj
            [("must", JVal.arr [docQuery]), ("filter", JVal.arr filterConditions)])])
        else some docQuery
      | none => none
    else none

/-- Embedding of buildKNNExpression (client_query.go lines 639-690). -/
def buildKNNExpression (knn : HybridSearchKNN) (embFunc : Option EmbedFunc) :
    Except QErr (Option JVal) :=
  let resolved : Except QErr (List Int) :=
    match knn.queryEmbeddings with
    | e :: _ => Except.ok e
    | [] =>
      if !knn.queryTexts.isEmpty then
        match embFunc with
        | none => Except.error QErr.embeddingFunctionRequired
        | some f =>
          match f knn.queryTexts with
          | Except.error msg => Except.error (QErr.embedFailed msg)
          | Except.ok embeddings =>
            match embeddings with
            | v :: _ => Except.ok v
            | [] => Except.ok []
      else Except.error QErr.knnRequiresInput
  match resolved with
  | Except.error e => Except.error e
  | Except.ok queryVector =>
    if queryVector.isEmpty then Except.ok none
    else
      let k := if knn.nResults ≤ 0 then (10 : Int) else knn.nResults
      let base := [("field", JVal.str "embedding"), ("k", JVal.int k),
                   ("query_vector", JVal.arr (queryVector.map JVal.int))]
      let filterConditions := buildMetadataFilterForSearchParm knn.whereMeta
      Except.ok (some (JVal.obj
        (if filterConditions.isEmpty then base
         else base ++ [("filter", JVal.arr filterConditions)])))

/-- The size and rank entries appended at the end of buildSearchParm
(client_query.go lines 322-340). -/
def sizeRankTail (s : List (String × JVal)) (nResults : Int)
    (rank : Option HybridSearchRank) : List (String × JVal) :=
  let s3 := if nResults > 0 then s ++ [("size", JVal.int nResults)] else s
  match rank with
  | some r =>
    match r.rrf with
    | some rrf =>
      s3 ++ [("rank", JVal.obj [("rrf", JVal.obj
        (if rrf.k > 0 then [("rank_constant", JVal.int rrf.k)] else []))])]
    | none => s3
  | none => s3

/-- Embedding of buildSearchParm (client_query.go lines 300-343). -/
def buildSearchParm (query : Option HybridSearchQuery) (knn : Option HybridSearchKNN)
    (rank : Option HybridSearchRank) (nResults : Int) (embFunc : Option EmbedFunc) :
    Except QErr (List (String × JVal)) :=
  let s1 : List (String × JVal) :=
    match query with
    | some q =>
      match buildQueryExpression q with
      | some queryExpr => [("query", queryExpr)]
      | none => []
    | none => []
  match knn with
  | none => Except.ok (sizeRankTail s1 nResults rank)
  | some k =>
    match buildKNNExpression k embFunc with
    | Except.error e => Except.error e
    | Except.ok knnExpr =>
      let s2 := match knnExpr with
        | some e => s1 ++ [("knn", e)]
        | none => s1
      Except.ok (sizeRankTail s2 nResults rank)

/-- Modelled from the spec: the comparison operator set of a FieldCondition of
the Filter AST (section 3 of the spec); the IN and NIN forms are separate
constructors of FilterNode because they require a list value. -/
inductive CmpOp where
  | eq | ne | gt | gte | lt | lte
deriving DecidableEq

/-- Modelled from the spec: the Filter AST produced by the filter
parser/normalizer (section 3).  The parser and the SQL predicate compiler
(BuildMetadataFilter) are not part of the provided sources; this AST follows
the data model of the spec: scalar field conditions, list-valued IN and NIN
conditions, and the logical combinators over ordered child sequences. -/
inductive FilterNode where
  | cond (field : String) (op : CmpOp) (value : JVal)
  | inList (field : String) (values : List JVal)
  | ninList (field : String) (values : List JVal)
  | and (children : List FilterNode)
  | or (children : List FilterNode)
  | not (child : FilterNode)

/-- Modelled from the spec: the document-filter AST (section 3), with Contains
and Regex leaves and the logical combinators. -/
inductive DocumentFilterNode where
  | contains (text : String)
  | regex (pattern : String)
  | dand (children : List DocumentFilterNode)
  | dor (children : List DocumentFilterNode)
  | dnot (child : DocumentFilterNode)

/-- Modelled from the spec: the JSON-extraction addressing expression of the
SQL predicate compiler, as in the spec scenario for the category filter. -/
def sqlJsonField (field : String) : String :=
  "(JSON_EXTRACT(metadata,\x27$." ++ field ++ "\x27))"

/-- Modelled from the spec: SQL comparison operator text. -/
def sqlOpText : CmpOp → String
  | .eq => "="
  | .ne => "!="
  | .gt => ">"
  | .gte => ">="
  | .lt => "<"
  | .lte => "<="

/-- Join of already-compiled child predicates with a logical connective:
non-empty clauses are joined and parenthesized, the argument lists are
concatenated in child order; with no non-empty clause the result is no
clause at all. -/
def joinCompiled (connective : String) (rs : List (String × List JVal)) :
    String × List JVal :=
  let clauses := (rs.map (fun r => r.1)).filter (fun c => c ≠ "")
  (if clauses.isEmpty then "" else "(" ++ joinSep connective clauses ++ ")",
   rs.flatMap (fun r => r.2))

mutual

/-- Modelled from the spec: the SQL predicate compiler BuildMetadataFilter
(section 4.2), absent from the provided sources.  Each comparison appends one
bound argument; IN and NIN append one argument per element and reject an
empty list as InvalidFilter; logical nodes join their compiled children. -/
def buildMetadataFilterSQL : FilterNode → Except QErr (String × List JVal)
  | .cond field op value =>
    Except.ok (sqlJsonField field ++ " " ++ sqlOpText op ++ " ?", [value])
  | .inList field values =>
    if values.isEmpty then
      Except.error (QErr.invalidFilter "empty list for $in operator")
    else
      Except.ok (sqlJsonField field ++ " IN (" ++
        joinSep ", " (values.map (fun _ => "?")) ++ ")", values)
  | .ninList field values =>
    if values.isEmpty then
      Except.error (QErr.invalidFilter "empty list for $nin operator")
    else
      Except.ok (sqlJsonField field ++ " NOT IN (" ++
        joinSep ", " (values.map (fun _ => "?")) ++ ")", values)
  | .and children =>
    match buildSQLChildren children with
    | Except.error e => Except.error e
    | Except.ok rs => Except.ok (joinCompiled " AND " rs)
  | .or children =>
    match buildSQLChildren children with
    | Except.error e => Except.error e
    | Except.ok rs => Except.ok (joinCompiled " OR " rs)
  | .not child =>
    match buildMetadataFilterSQL child with
    | Except.error e => Except.error e
    | Except.ok (clause, args) => Except.ok ("NOT (" ++ clause ++ ")", args)

/-- Compilation of a child sequence, left to right. -/
def buildSQLChildren : List FilterNode → Except QErr (List (String × List JVal))
  | [] => Except.ok []
  | c :: cs =>
    match buildMetadataFilterSQL c with
    | Except.error e => Except.error e
    | Except.ok r =>
      match buildSQLChildren cs with
      | Except.error e => Except.error e
      | Except.ok rs => Except.ok (r :: rs)

end

mutual

/-- Modelled from the spec: the SQL document-filter compiler
BuildDocumentFilter (section 4.2), absent from the provided sources.
Contains compiles to a parameterized LIKE substring test and Regex to a
parameterized regex match against the document column; the pattern is always
a bound argument, never inlined. -/
def buildDocumentFilterSQL : DocumentFilterNode → Except QErr (String × List JVal)
  | .contains text =>
    Except.ok ("document LIKE ?", [JVal.str ("%" ++ text ++ "%")])
  | .regex pattern =>
    Except.ok ("document REGEXP ?", [JVal.str pattern])
  | .dand children =>
    match buildDocSQLChildren children with
    | Except.error e => Except.error e
    | Except.ok rs => Except.ok (joinCompiled " AND " rs)
  | .dor children =>
    match buildDocSQLChildren children with
    | Except.error e => Except.error e
    | Except.ok rs => Except.ok (joinCompiled " OR " rs)
  | .dnot child =>
    match buildDocumentFilterSQL child with
    | Except.error e => Except.error e
    | Except.ok (clause, args) => Except.ok ("NOT (" ++ clause ++ ")", args)

/-- Compilation of a document-filter child sequence, left to right. -/
def buildDocSQLChildren : List DocumentFilterNode → Except QErr (List (String × List JVal))
  | [] => Except.ok []
  | c :: cs =>
    match buildDocumentFilterSQL c with
    | Except.error e => Except.error e
    | Except.ok r =>
      match buildDocSQLChildren cs with
      | Except.error e => Except.error e
      | Except.ok rs => Except.ok (r :: rs)

end

/-- Modelled from the spec: compile of an optional filter; a nil filter
compiles to the empty clause with the empty argument list (section 4.2). -/
def buildMetadataFilterSQLOpt : Option FilterNode → Except QErr (String × List JVal)
  | none => Except.ok ("", [])
  | some f => buildMetadataFilterSQL f

/-- Embedding of GetOptions: the metadata and document filters are carried as
the parsed ASTs (the parser is outside the provided sources), plus limit and
offset. -/
structure GetOptions where
  whereMeta : Option FilterNode
  whereDoc : Option DocumentFilterNode
  limit : Int
  offset : Int

/-- The one condition-and-arguments contribution of an optional metadata
filter in collectionGet: absent or empty clauses contribute nothing. -/
def filterPartMeta : Option FilterNode → Except QErr (List String × List JVal)
  | none => Except.ok ([], [])
  | some f =>
    match buildMetadataFilterSQL f with
    | Except.error e => Except.error e
    | Except.ok (clause, fargs) =>
      Except.ok (if clause == "" then ([], []) else ([clause], fargs))

/-- The one condition-and-arguments contribution of an optional document
filter in collectionGet. -/
def filterPartDoc : Option DocumentFilterNode → Except QErr (List String × List JVal)
  | none => Except.ok ([], [])
  | some f =>
    match buildDocumentFilterSQL f with
    | Except.error e => Except.error e
    | Except.ok (clause, fargs) =>
      Except.ok (if clause == "" then ([], []) else ([clause], fargs))

/-- The IN condition over the id column built by collectionGet
(client_query.go lines 124-131): one placeholder per id. -/
def idInClause (ids : List String) : String :=
  "_id IN (" ++ joinSep ", " (ids.map (fun _ => "?")) ++ ")"

/-- The SELECT statement template of collectionGet (client_query.go lines
162-167), with the table name and the whereClause slot filled in. -/
def getQuerySQL (tableName whereClause : String) : String :=
  "\n\t\t\tSELECT _id, document, metadata, embedding\n\t\t\tFROM " ++ tableName ++
    "\n\t\t\t" ++ whereClause ++ "\n\t\t\tLIMIT ? OFFSET ?\n\t\t"

/-- Embedding of GetTableName (prefix c$v1$). -/
def getTableName (collectionName : String) : String :=
  "c$v1$" ++ collectionName

/-- Embedding of the query-building portion of collectionGet
(client_query.go lines 117-174): the id IN condition, then the metadata
filter condition, then the document filter condition, joined under WHERE when
any is present; the argument list is ids, then filter arguments, then the
limit (defaulted to 1000 when 0) and offset. -/
def collectionGetQuery (collectionName : String) (ids : List String)
    (opts : GetOptions) : Except QErr (String × List JVal) :=
  match filterPartMeta opts.whereMeta with
  | Except.error e => Except.error e
  | Except.ok (mConds, mArgs) =>
    match filterPartDoc opts.whereDoc with
    | Except.error e => Except.error e
    | Except.ok (dConds, dArgs) =>
      let idPart : List String × List JVal :=
        if ids.isEmpty then ([], []) else ([idInClause ids], ids.map JVal.str)
      let conditions := idPart.1 ++ mConds ++ dConds
      let args := idPart.2 ++ mArgs ++ dArgs
      let whereClause :=
        if conditions.isEmpty then "" else "WHERE " ++ joinSep " AND " conditions
      let limit := if opts.limit == 0 then (1000 : Int) else opts.limit
      Except.ok (getQuerySQL (getTableName collectionName) whereClause,
        args ++ [JVal.int limit, JVal.int opts.offset])

mutual

/-- A filter AST is clean when none of its field names contains a literal
question-mark character (field names are spliced into the clause text, so a
question mark there would not be a bind placeholder to the driver yet would
be counted by a textual scan). -/
def cleanNode : FilterNode → Bool
  | .cond field _ _ => countQ field == 0
  | .inList field _ => countQ field == 0
  | .ninList field _ => countQ field == 0
  | .and children => cleanChildren children
  | .or children => cleanChildren children
  | .not child => cleanNode child

/-- Cleanliness of a child sequence. -/
def cleanChildren : List FilterNode → Bool
  | [] => true
  | c :: cs => cleanNode c && cleanChildren cs

end

/-- Cleanliness of Get options: the metadata filter, when present, is clean. -/
def cleanOptsB (opts : GetOptions) : Bool :=
  match opts.whereMeta with
  | some f => cleanNode f
  | none => true

/-- A compilation result whose clause has exactly one question-mark
placeholder per bound argument (trivially satisfied by a failed
compilation). -/
def placeholdersOk (r : Except QErr (String × List JVal)) : Prop :=
  match r with
  | Except.ok (clause, args) => countQ clause = args.length
  | Except.error _ => True

/-- The child-sequence form of placeholdersOk. -/
def placeholdersOkL (r : Except QErr (List (String × List JVal))) : Prop :=
  match r with
  | Except.ok rs => ∀ p ∈ rs, countQ p.1 = p.2.length
  | Except.error _ => True

/-- The shape of a compiled Get statement with a non-empty id list: the where
clause starts with the id IN condition, and the argument list is the ids (in
order), then the filter arguments, then limit and offset. -/
def getArgsShape (name : String) (ids : List String) (opts : GetOptions) : Prop :=
  match collectionGetQuery name ids opts with
  | Except.ok (sql, args) =>
      ∃ restConds fArgs,
        sql = getQuerySQL (getTableName name)
          ("WHERE " ++ joinSep " AND " (idInClause ids :: restConds))
        ∧ args = ids.map JVal.str ++ fArgs ++
            [JVal.int (if opts.limit == 0 then 1000 else opts.limit),
             JVal.int opts.offset]
        ∧ countQ (idInClause ids) = ids.length
  | Except.error _ => True

/-- The descriptor-side key of a range comparison operator. -/
def rangeKeyText : String → String
  | "$lt" => "lt"
  | "$lte" => "lte"
  | "$gt" => "gt"
  | "$gte" => "gte"
  | _ => ""

/-- The statement-and-argument result of a Get compilation ends in the given
limit and offset arguments. -/
def lastArgsAre (r : Except QErr (String × List JVal)) (limit off : Int) : Prop :=
  match r with
  | Except.ok (_, args) => ∃ front, args = front ++ [JVal.int limit, JVal.int off]
  | Except.error _ => True

mutual

theorem jeq_refl : ∀ a : JVal, jeq a a = true
  | JVal.str s => by simp [jeq]
  | JVal.int n => by simp [jeq]
  | JVal.arr xs => by rw [jeq]; exact jeqL_refl xs
  | JVal.obj fs => by rw [jeq]; exact jeqO_refl fs

theorem jeqL_refl : ∀ xs : List JVal, jeqL xs xs = true
  | [] => rfl
  | x :: xs => by rw [jeqL, jeq_refl x, jeqL_refl xs]; rfl

theorem jeqO_refl : ∀ fs : List (String × JVal), jeqO fs fs = true
  | [] => rfl
  | (k, v) :: tl => by rw [jeqO, jeq_refl v, jeqO_refl tl]; simp

end

/-- A refuted Boolean equality gives propositional inequality of JVal lists. -/
theorem ne_of_jeqL_false {a b : List JVal} (h : jeqL a b = false) : a ≠ b := by
  intro he
  rw [he, jeqL_refl b] at h
  exact absurd h (by simp)

theorem countQ_append (a b : String) : countQ (a ++ b) = countQ a + countQ b := by
  simp [countQ, String.data_append, List.countP_append]

theorem countQ_joinSep {sep : String} (h : countQ sep = 0) :
    ∀ l : List String, countQ (joinSep sep l) = (l.map countQ).sum
  | [] => by simp [joinSep, countQ]
  | [x] => by simp [joinSep]
  | x :: y :: xs => by
    have h1 : joinSep sep (x :: y :: xs) = x ++ sep ++ joinSep sep (y :: xs) := rfl
    rw [h1, countQ_append, countQ_append, h, countQ_joinSep h (y :: xs)]
    simp

theorem sum_map_one (l : List α) : (l.map (fun _ => (1 : Nat))).sum = l.length := by
  induction l with
  | nil => rfl
  | cons x xs ih => simp [ih]; omega

theorem countQ_placeholders (l : List α) :
    countQ (joinSep ", " (l.map (fun _ => "?"))) = l.length := by
  rw [countQ_joinSep (by decide), List.map_map]
  have hq : countQ "?" = 1 := by decide
  have hcomp : (countQ ∘ fun _ : α => "?") = fun _ : α => (1 : Nat) := by
    funext x
    simp [Function.comp, hq]
  rw [hcomp, sum_map_one]

theorem sum_countQ_filter (l : List String) :
    ((l.filter (fun c => c ≠ "")).map countQ).sum = (l.map countQ).sum := by
  induction l with
  | nil => rfl
  | cons x xs ih =>
    rw [List.filter_cons]
    by_cases hx : x = ""
    · subst hx
      rw [if_neg (by simp)]
      have h0 : countQ "" = 0 := rfl
      rw [List.map_cons, List.sum_cons, ih, h0]
      omega
    · rw [if_pos (by simp [hx]), List.map_cons, List.sum_cons, List.map_cons,
          List.sum_cons, ih]

theorem sum_clause_eq_len_args :
    ∀ (rs : List (String × List JVal)), (∀ p ∈ rs, countQ p.1 = p.2.length) →
    ((rs.map (fun r => r.1)).map countQ).sum = (rs.flatMap (fun r => r.2)).length
  | [], _ => rfl
  | r :: tl, h => by
    have hr := h r (List.mem_cons_self r tl)
    have htl := sum_clause_eq_len_args tl (fun p hp => h p (List.mem_cons_of_mem r hp))
    rw [List.flatMap_cons, List.map_cons, List.map_cons, List.sum_cons,
        List.length_append, hr, htl]

theorem joinCompiled_count {connective : String} (hc : countQ connective = 0)
    (rs : List (String × List JVal)) (h : ∀ p ∈ rs, countQ p.1 = p.2.length) :
    countQ (joinCompiled connective rs).1 = (joinCompiled connective rs).2.length := by
  unfold joinCompiled
  simp only
  have hsum := sum_clause_eq_len_args rs h
  have hfilter := sum_countQ_filter (rs.map (fun r => r.1))
  by_cases hcl : ((rs.map (fun r => r.1)).filter (fun c => c ≠ "")).isEmpty
  · rw [if_pos hcl]
    have : (rs.map (fun r => r.1)).filter (fun c => c ≠ "") = [] :=
      List.isEmpty_iff.mp hcl
    rw [this] at hfilter
    simp only [List.map_nil, List.sum_nil] at hfilter
    have h0 : countQ "" = 0 := rfl
    omega
  · rw [if_neg hcl, countQ_append, countQ_append, countQ_joinSep hc]
    have h1 : countQ "(" = 0 := rfl
    have h2 : countQ ")" = 0 := rfl
    omega

mutual

theorem countOk_meta : ∀ F : FilterNode, cleanNode F = true →
    placeholdersOk (buildMetadataFilterSQL F)
  | FilterNode.cond field op value, h => by
    have hf : countQ field = 0 := by simpa [cleanNode] using h
    simp only [buildMetadataFilterSQL, placeholdersOk]
    rw [countQ_append, countQ_append, countQ_append]
    have h1 : countQ "(JSON_EXTRACT(metadata,\x27$." = 0 := rfl
    have h2 : countQ "\x27))" = 0 := rfl
    have h3 : countQ (sqlOpText op) = 0 := by cases op <;> rfl
    have h4 : countQ " " = 0 := rfl
    have h5 : countQ " ?" = 1 := rfl
    simp only [sqlJsonField, countQ_append, h1, h2, h3, h4, h5, hf, List.length_cons,
      List.length_nil]
  | FilterNode.inList field values, h => by
    have hf : countQ field = 0 := by simpa [cleanNode] using h
    by_cases hv : values.isEmpty
    · rw [buildMetadataFilterSQL, if_pos hv]
      trivial
    · rw [buildMetadataFilterSQL, if_neg hv]
      simp only [placeholdersOk]
      rw [countQ_append, countQ_append, countQ_append, countQ_placeholders]
      have h1 : countQ " IN (" = 0 := rfl
      have h2 : countQ ")" = 0 := rfl
      have h3 : countQ (sqlJsonField field) = 0 := by
        simp only [sqlJsonField, countQ_append, hf]
        rfl
      omega
  | FilterNode.ninList field values, h => by
    have hf : countQ field = 0 := by simpa [cleanNode] using h
    by_cases hv : values.isEmpty
    · rw [buildMetadataFilterSQL, if_pos hv]
      trivial
    · rw [buildMetadataFilterSQL, if_neg hv]
      simp only [placeholdersOk]
      rw [countQ_append, countQ_append, countQ_append, countQ_placeholders]
      have h1 : countQ " NOT IN (" = 0 := rfl
      have h2 : countQ ")" = 0 := rfl
      have h3 : countQ (sqlJsonField field) = 0 := by
        simp only [sqlJsonField, countQ_append, hf]
        rfl
      omega
  | FilterNode.and children, h => by
    have hch : cleanChildren children = true := by simpa [cleanNode] using h
    rw [buildMetadataFilterSQL]
    cases hc : buildSQLChildren children with
    | error e => trivial
    | ok rs =>
      have hall := countOk_metaChildren children hch
      rw [hc] at hall
      simp only [placeholdersOkL] at hall
      exact joinCompiled_count (by rfl) rs hall
  | FilterNode.or children, h => by
    have hch : cleanChildren children = true := by simpa [cleanNode] using h
    rw [buildMetadataFilterSQL]
    cases hc : buildSQLChildren children with
    | error e => trivial
    | ok rs =>
      have hall := countOk_metaChildren children hch
      rw [hc] at hall
      simp only [placeholdersOkL] at hall
      exact joinCompiled_count (by rfl) rs hall
  | FilterNode.not child, h => by
    have hch : cleanNode child = true := by simpa [cleanNode] using h
    rw [buildMetadataFilterSQL]
    cases hc : buildMetadataFilterSQL child with
    | error e => trivial
    | ok r =>
      obtain ⟨clause, args⟩ := r
      have hr := countOk_meta child hch
      rw [hc] at hr
      simp only [placeholdersOk] at hr ⊢
      rw [countQ_append, countQ_append]
      have h1 : countQ "NOT (" = 0 := rfl
      have h2 : countQ ")" = 0 := rfl
      omega

theorem countOk_metaChildren : ∀ cs : List FilterNode, cleanChildren cs = true →
    placeholdersOkL (buildSQLChildren cs)
  | [], _ => by
    rw [buildSQLChildren]
    simp [placeholdersOkL]
  | c :: tl, h => by
    have h1 : cleanNode c = true ∧ cleanChildren tl = true := by
      simpa [cleanChildren, Bool.and_eq_true] using h
    rw [buildSQLChildren]
    cases hc : buildMetadataFilterSQL c with
    | error e => trivial
    | ok r =>
      cases ht : buildSQLChildren tl with
      | error e => trivial
      | ok rs =>
        have hr := countOk_meta c h1.1
        rw [hc] at hr
        have hrs := countOk_metaChildren tl h1.2
        rw [ht] at hrs
        simp only [placeholdersOk] at hr
        simp only [placeholdersOkL] at hrs ⊢
        intro p hp
        rcases List.mem_cons.mp hp with heq | hmem
        · subst heq
          exact hr
        · exact hrs p hmem

end

mutual

theorem countOk_doc : ∀ D : DocumentFilterNode,
    placeholdersOk (buildDocumentFilterSQL D)
  | DocumentFilterNode.contains text => by
    simp only [buildDocumentFilterSQL, placeholdersOk]
    rfl
  | DocumentFilterNode.regex pattern => by
    simp only [buildDocumentFilterSQL, placeholdersOk]
    rfl
  | DocumentFilterNode.dand children => by
    rw [buildDocumentFilterSQL]
    cases hc : buildDocSQLChildren children with
    | error e => trivial
    | ok rs =>
      have hall := countOk_docChildren children
      rw [hc] at hall
      simp only [placeholdersOkL] at hall
      exact joinCompiled_count (by rfl) rs hall
  | DocumentFilterNode.dor children => by
    rw [buildDocumentFilterSQL]
    cases hc : buildDocSQLChildren children with
    | error e => trivial
    | ok rs =>
      have hall := countOk_docChildren children
      rw [hc] at hall
      simp only [placeholdersOkL] at hall
      exact joinCompiled_count (by rfl) rs hall
  | DocumentFilterNode.dnot child => by
    rw [buildDocumentFilterSQL]
    cases hc : buildDocumentFilterSQL child with
    | error e => trivial
    | ok r =>
      obtain ⟨clause, args⟩ := r
      have hr := countOk_doc child
      rw [hc] at hr
      simp only [placeholdersOk] at hr ⊢
      rw [countQ_append, countQ_append]
      have h1 : countQ "NOT (" = 0 := rfl
      have h2 : countQ ")" = 0 := rfl
      omega

theorem countOk_docChildren : ∀ cs : List DocumentFilterNode,
    placeholdersOkL (buildDocSQLChildren cs)
  | [] => by
    rw [buildDocSQLChildren]
    simp [placeholdersOkL]
  | c :: tl => by
    rw [buildDocSQLChildren]
    cases hc : buildDocumentFilterSQL c with
    | error e => trivial
    | ok r =>
      cases ht : buildDocSQLChildren tl with
      | error e => trivial
      | ok rs =>
        have hr := countOk_doc c
        rw [hc] at hr
        have hrs := countOk_docChildren tl
        rw [ht] at hrs
        simp only [placeholdersOk] at hr
        simp only [placeholdersOkL] at hrs ⊢
        intro p hp
        rcases List.mem_cons.mp hp with heq | hmem
        · subst heq
          exact hr
        · exact hrs p hmem

end

theorem filterPartMeta_count (o : Option FilterNode)
    (h : (match o with | some f => cleanNode f | none => true) = true) :
    match filterPartMeta o with
    | Except.ok (conds, args) => ((conds.map countQ)).sum = args.length
    | Except.error _ => True := by
  cases o with
  | none => trivial
  | some f =>
    have hf := countOk_meta f (by simpa using h)
    rw [filterPartMeta]
    cases hc : buildMetadataFilterSQL f with
    | error e => trivial
    | ok r =>
      obtain ⟨clause, args⟩ := r
      rw [hc] at hf
      simp only [placeholdersOk] at hf
      by_cases hcl : clause = ""
      · subst hcl
        have h0 : countQ "" = 0 := rfl
        have hargs : args.length = 0 := by omega
        have : args = [] := List.length_eq_zero.mp hargs
        subst this
        trivial
      · have hbeq : (clause == "") = false := by simp [hcl]
        simp only [hbeq, Bool.false_eq_true, if_false, List.map_cons, List.map_nil,
          List.sum_cons, List.sum_nil, hf]
        omega

theorem filterPartDoc_count (o : Option DocumentFilterNode) :
    match filterPartDoc o with
    | Except.ok (conds, args) => ((conds.map countQ)).sum = args.length
    | Except.error _ => True := by
  cases o with
  | none => trivial
  | some f =>
    have hf := countOk_doc f
    rw [filterPartDoc]
    cases hc : buildDocumentFilterSQL f with
    | error e => trivial
    | ok r =>
      obtain ⟨clause, args⟩ := r
      rw [hc] at hf
      simp only [placeholdersOk] at hf
      by_cases hcl : clause = ""
      · subst hcl
        have h0 : countQ "" = 0 := rfl
        have hargs : args.length = 0 := by omega
        have : args = [] := List.length_eq_zero.mp hargs
        subst this
        trivial
      · have hbeq : (clause == "") = false := by simp [hcl]
        simp only [hbeq, Bool.false_eq_true, if_false, List.map_cons, List.map_nil,
          List.sum_cons, List.sum_nil, hf]
        omega

theorem countQ_where (conds : List String) :
    countQ (if conds.isEmpty then "" else "WHERE " ++ joinSep " AND " conds) =
      (conds.map countQ).sum := by
  by_cases h : conds.isEmpty
  · rw [if_pos h]
    have : conds = [] := List.isEmpty_iff.mp h
    subst this
    rfl
  · rw [if_neg h, countQ_append, countQ_joinSep (by rfl)]
    have h1 : countQ "WHERE " = 0 := rfl
    omega

theorem getQuerySQL_count (t w : String) :
    countQ (getQuerySQL t w) = countQ t + countQ w + 2 := by
  unfold getQuerySQL
  rw [countQ_append, countQ_append, countQ_append, countQ_append]
  have h1 : countQ "\n\t\t\tSELECT _id, document, metadata, embedding\n\t\t\tFROM " = 0 := rfl
  have h2 : countQ "\n\t\t\t" = 0 := rfl
  have h3 : countQ "\n\t\t\tLIMIT ? OFFSET ?\n\t\t" = 2 := rfl
  omega

theorem countQ_idInClause (ids : List String) :
    countQ (idInClause ids) = ids.length := by
  rw [idInClause, countQ_append, countQ_append, countQ_placeholders]
  have h1 : countQ "_id IN (" = 0 := rfl
  have h2 : countQ ")" = 0 := rfl
  omega

theorem get_ids_shape (name : String) (ids : List String) (opts : GetOptions)
    (h : ids ≠ []) : getArgsShape name ids opts := by
  unfold getArgsShape collectionGetQuery
  cases h1 : filterPartMeta opts.whereMeta with
  | error e => trivial
  | ok mp =>
    obtain ⟨mConds, mArgs⟩ := mp
    cases h2 : filterPartDoc opts.whereDoc with
    | error e => trivial
    | ok dp =>
      obtain ⟨dConds, dArgs⟩ := dp
      have hids : ids.isEmpty = false := by
        cases ids with
        | nil => exact absurd rfl h
        | cons a l => rfl
      simp only [hids, Bool.false_eq_true, if_false]
      refine ⟨mConds ++ dConds, mArgs ++ dArgs, ?_, ?_, countQ_idInClause ids⟩
      · have hcons : ((([idInClause ids] : List String) ++ mConds ++ dConds)) =
            idInClause ids :: (mConds ++ dConds) := by
          simp
        rw [hcons]
        have : (idInClause ids :: (mConds ++ dConds)).isEmpty = false := rfl
        rw [this]
        simp
      · simp [List.append_assoc]

theorem get_count (name : String) (ids : List String) (opts : GetOptions)
    (hname : countQ name = 0) (hclean : cleanOptsB opts = true) :
    placeholdersOk (collectionGetQuery name ids opts) := by
  have hm := filterPartMeta_count opts.whereMeta (by simpa [cleanOptsB] using hclean)
  have hd := filterPartDoc_count opts.whereDoc
  unfold collectionGetQuery
  cases h1 : filterPartMeta opts.whereMeta with
  | error e => trivial
  | ok mp =>
    obtain ⟨mConds, mArgs⟩ := mp
    rw [h1] at hm
    simp only at hm
    cases h2 : filterPartDoc opts.whereDoc with
    | error e => trivial
    | ok dp =>
      obtain ⟨dConds, dArgs⟩ := dp
      rw [h2] at hd
      simp only at hd
      simp only [placeholdersOk]
      have htbl : countQ (getTableName name) = 0 := by
        rw [getTableName, countQ_append, hname]
        rfl
      rw [getQuerySQL_count, htbl, countQ_where]
      by_cases hids : ids.isEmpty
      · simp only [hids, if_true]
        simp only [List.nil_append, List.map_append, List.sum_append,
          List.length_append, List.length_cons, List.length_nil, hm, hd]
        omega
      · simp only [hids, Bool.false_eq_true, if_false]
        have hlen : (ids.map JVal.str).length = ids.length := List.length_map ids JVal.str
        simp only [List.cons_append, List.nil_append, List.map_cons, List.map_append,
          List.sum_cons, List.sum_append, List.length_append, List.length_cons,
          List.length_nil, hm, hd, countQ_idInClause, hlen]
        omega

/-- Claim C2: the SQL compilation of every (clean) filter AST yields a clause
whose placeholder count equals the argument count, for both the metadata and
the document compiler; a Get with a non-empty id list of length n puts the n
ids first in the argument list (in order, before the filter and pagination
arguments) under a where clause starting with an IN condition of exactly n
placeholders; and the full Get statement has exactly one placeholder per
argument. -/
theorem placeholder_args_alignment :
    (∀ F : FilterNode, cleanNode F = true → placeholdersOk (buildMetadataFilterSQL F))
    ∧ (∀ D : DocumentFilterNode, placeholdersOk (buildDocumentFilterSQL D))
    ∧ (∀ (name : String) (ids : List String) (opts : GetOptions),
        ids ≠ [] → getArgsShape name ids opts)
    ∧ (∀ (name : String) (ids : List String) (opts : GetOptions),
        countQ name = 0 → cleanOptsB opts = true →
        placeholdersOk (collectionGetQuery name ids opts)) :=
  ⟨countOk_meta, countOk_doc, get_ids_shape, get_count⟩

/-- Witness for claim C2 at a concrete filter AST and a concrete Get call. -/
theorem placeholder_args_alignment_witness :
    (cleanNode (FilterNode.and [FilterNode.cond "category" CmpOp.eq (JVal.str "AI"),
        FilterNode.inList "tag" [JVal.str "ml", JVal.str "py"]]) = true
      ∧ placeholdersOk (buildMetadataFilterSQL
          (FilterNode.and [FilterNode.cond "category" CmpOp.eq (JVal.str "AI"),
            FilterNode.inList "tag" [JVal.str "ml", JVal.str "py"]])))
    ∧ ((["a", "b"] : List String) ≠ []
      ∧ getArgsShape "test" ["a", "b"] ⟨none, none, 0, 0⟩)
    ∧ (countQ "test" = 0 ∧ cleanOptsB ⟨none, none, 0, 0⟩ = true
      ∧ placeholdersOk (collectionGetQuery "test" ["a", "b"] ⟨none, none, 0, 0⟩)) :=
  ⟨⟨by decide,
    placeholder_args_alignment.1
      (FilterNode.and [FilterNode.cond "category" CmpOp.eq (JVal.str "AI"),
        FilterNode.inList "tag" [JVal.str "ml", JVal.str "py"]]) (by decide)⟩,
   ⟨by decide, placeholder_args_alignment.2.2.1 "test" ["a", "b"] ⟨none, none, 0, 0⟩
      (by decide)⟩,
   ⟨by decide, rfl, placeholder_args_alignment.2.2.2 "test" ["a", "b"]
      ⟨none, none, 0, 0⟩ (by decide) rfl⟩⟩

/-- The claim C1 states that a regex document filter fails hybrid-search
compilation with an UnsupportedInTarget error.  The code has no such error:
buildDocumentQuery finds neither a contains, an and, nor an or key and
returns nil, and buildSearchParm then succeeds with a request that simply
lacks the query section — the regex condition is silently dropped. -/
theorem regex_counterexample :
    buildDocumentQuery [("$regex", JVal.str ".*machine.*")] = none
    ∧ buildSearchParm (some ⟨[("$regex", JVal.str ".*machine.*")], [], 0⟩)
        none none 10 none = Except.ok [("size", JVal.int 10)] :=
  ⟨rfl, rfl⟩

/-- Claim C1 (amended): for every document filter whose sole key is a regex
condition, the hybrid-search descriptor compiler silently drops it: the
document query and the query expression are both nil, no error of any kind is
raised, and the assembled request succeeds without a query section. -/
theorem regex_silently_dropped (pattern : JVal) (n : Int) (rank : Option HybridSearchRank)
    (sz : Int) (f : Option EmbedFunc) :
    buildDocumentQuery [("$regex", pattern)] = none
    ∧ buildQueryExpression ⟨[("$regex", pattern)], [], n⟩ = none
    ∧ buildSearchParm (some ⟨[("$regex", pattern)], [], n⟩) none rank sz f =
        Except.ok (sizeRankTail [] sz rank) :=
  ⟨rfl, rfl, rfl⟩

/-- Claim C3 as stated is false: the descriptor compiler does not use the
plain field names; the or-of-gte-and-term filter compiles to a document whose
range and term keys are the JSON_EXTRACT addressing expressions, not the
bare score and tag names. -/
theorem or_descriptor_counterexample :
    buildMetadataFilterConditions
      [("$or", JVal.arr [JVal.obj [("score", JVal.obj [("$gte", JVal.int 90)])],
                         JVal.obj [("tag", JVal.str "ml")]])] ≠
    [JVal.obj [("bool", JVal.obj [("should", JVal.arr
      [JVal.obj [("range", JVal.obj [("score", JVal.obj [("gte", JVal.int 90)])])],
       JVal.obj [("term", JVal.obj [("tag", JVal.str "ml")])]])])]] :=
  ne_of_jeqL_false rfl

/-- Claim C3 (amended): the or-of-gte-and-term filter compiles via the
descriptor path to exactly one bool/should document with the range and term
children in list order, with each field name wrapped in the JSON_EXTRACT
metadata addressing expression. -/
theorem or_descriptor_compilation :
    buildMetadataFilterConditions
      [("$or", JVal.arr [JVal.obj [("score", JVal.obj [("$gte", JVal.int 90)])],
                         JVal.obj [("tag", JVal.str "ml")]])] =
    [JVal.obj [("bool", JVal.obj [("should", JVal.arr
      [JVal.obj [("range", JVal.obj
        [(metaFieldName "score", JVal.obj [("gte", JVal.int 90)])])],
       JVal.obj [("term", JVal.obj
        [(metaFieldName "tag", JVal.str "ml")])]])])]] :=
  rfl

/-- Claim C8 as stated is false: buildSearchParm with neither a query nor a
knn argument succeeds and produces a request containing neither section, only
the size entry. -/
theorem neither_section_counterexample :
    buildSearchParm none none none 10 none = Except.ok [("size", JVal.int 10)]
    ∧ lookupF [("size", JVal.int 10)] "query" = none
    ∧ lookupF [("size", JVal.int 10)] "knn" = none :=
  ⟨rfl, rfl, rfl⟩

theorem lookupF_append (a b : List (String × JVal)) (k : String) :
    lookupF (a ++ b) k = match lookupF a k with
      | some v => some v
      | none => lookupF b k := by
  unfold lookupF
  rw [List.find?_append]
  cases List.find? (fun p => p.1 == k) a <;> simp [Option.or]

theorem lookupF_nil (k : String) : lookupF [] k = none := rfl

theorem lookupF_cons_ne {k1 : String} (v : JVal) (tl : List (String × JVal))
    {k : String} (h : k1 ≠ k) : lookupF ((k1, v) :: tl) k = lookupF tl k := by
  unfold lookupF
  rw [List.find?_cons_of_neg]
  simp [h]

/-- On a condition map without logical-operator keys,
buildMetadataFilterConditions is the field-condition loop. -/
theorem bmfc_noLogical (c : Filter)
    (hand : lookupF c "$and" = none) (hor : lookupF c "$or" = none)
    (hnot : lookupF c "$not" = none) :
    buildMetadataFilterConditions c =
      c.flatMap (fun p =>
        if p.1 == "$and" || p.1 == "$or" || p.1 == "$not" then [] else fieldConds p) := by
  cases c with
  | nil => rfl
  | cons p ps =>
    obtain ⟨k, v⟩ := p
    have h1 : josize ((k, v) :: ps) = (jsize v + josize ps) + 1 := by
      simp [josize]
      omega
    rw [buildMetadataFilterConditions, h1]
    show bmfcCore (bmfcFuel (jsize v + josize ps)) ((k, v) :: ps) = _
    rw [bmfcCore, hand, hor, hnot]
    simp

/-- The operator loop on a field mapping holding only range comparison
operators accumulates all of them into the rangeConditions map, in entry
order, emitting nothing else. -/
theorem foldl_fieldStep_ranges (fn : String) :
    ∀ (entries : List (String × JVal)) (acc : FieldAcc),
    (∀ p ∈ entries, p.1 = "$gt" ∨ p.1 = "$gte" ∨ p.1 = "$lt" ∨ p.1 = "$lte") →
    entries.foldl (fieldStep fn) acc =
      ⟨acc.emitted, acc.ranges ++ entries.map (fun p => (rangeKeyText p.1, p.2)), acc.term⟩
  | [], acc, _ => by simp
  | p :: tl, acc, h => by
    have hp := h p (List.mem_cons_self p tl)
    have htl : ∀ q ∈ tl, q.1 = "$gt" ∨ q.1 = "$gte" ∨ q.1 = "$lt" ∨ q.1 = "$lte" :=
      fun q hq => h q (List.mem_cons_of_mem p hq)
    obtain ⟨k, v⟩ := p
    simp only at hp
    rw [List.foldl_cons]
    rcases hp with hk | hk | hk | hk <;> subst hk
    · rw [show fieldStep fn acc ("$gt", v) =
            { acc with ranges := acc.ranges ++ [("gt", v)] } from rfl,
          foldl_fieldStep_ranges fn tl _ htl]
      simp [rangeKeyText]
    · rw [show fieldStep fn acc ("$gte", v) =
            { acc with ranges := acc.ranges ++ [("gte", v)] } from rfl,
          foldl_fieldStep_ranges fn tl _ htl]
      simp [rangeKeyText]
    · rw [show fieldStep fn acc ("$lt", v) =
            { acc with ranges := acc.ranges ++ [("lt", v)] } from rfl,
          foldl_fieldStep_ranges fn tl _ htl]
      simp [rangeKeyText]
    · rw [show fieldStep fn acc ("$lte", v) =
            { acc with ranges := acc.ranges ++ [("lte", v)] } from rfl,
          foldl_fieldStep_ranges fn tl _ htl]
      simp [rangeKeyText]

/-- Claim C4 as stated is false on filters that place range conditions on the
same field in separate subconditions: under an and of a gte and an lte
condition on the one field score, the compiler emits two sibling range
objects for that field, not one folded range object. -/
theorem range_fold_counterexample :
    buildMetadataFilterConditions
      [("$and", JVal.arr [JVal.obj [("score", JVal.obj [("$gte", JVal.int 90)])],
                          JVal.obj [("score", JVal.obj [("$lte", JVal.int 100)])]])] =
      [JVal.obj [("bool", JVal.obj [("must", JVal.arr
        [JVal.obj [("range", JVal.obj
          [(metaFieldName "score", JVal.obj [("gte", JVal.int 90)])])],
         JVal.obj [("range", JVal.obj
          [(metaFieldName "score", JVal.obj [("lte", JVal.int 100)])])]])])]]
    ∧ buildMetadataFilterConditions
      [("$and", JVal.arr [JVal.obj [("score", JVal.obj [("$gte", JVal.int 90)])],
                          JVal.obj [("score", JVal.obj [("$lte", JVal.int 100)])]])] ≠
      [JVal.obj [("bool", JVal.obj [("must", JVal.arr
        [JVal.obj [("range", JVal.obj [(metaFieldName "score",
          JVal.obj [("gte", JVal.int 90), ("lte", JVal.int 100)])])]])])]] :=
  ⟨rfl, ne_of_jeqL_false rfl⟩

/-- Claim C4 (amended): folding happens per field mapping: all range
comparison operators inside one field mapping are folded into exactly one
range object for that field, carrying all the given bounds in entry order;
the same field split over separate subconditions of a logical operator is
not folded. -/
theorem range_fold_per_field_mapping (field : String) (valueMap : List (String × JVal))
    (h1 : field ≠ "$and") (h2 : field ≠ "$or") (h3 : field ≠ "$not")
    (h4 : valueMap ≠ [])
    (h5 : ∀ p ∈ valueMap, p.1 = "$gt" ∨ p.1 = "$gte" ∨ p.1 = "$lt" ∨ p.1 = "$lte") :
    buildMetadataFilterConditions [(field, JVal.obj valueMap)] =
      [JVal.obj [("range", JVal.obj [(metaFieldName field,
        JVal.obj (valueMap.map (fun p => (rangeKeyText p.1, p.2))))])]] := by
  rw [bmfc_noLogical _ (by rw [lookupF_cons_ne _ _ h1]; rfl)
      (by rw [lookupF_cons_ne _ _ h2]; rfl) (by rw [lookupF_cons_ne _ _ h3]; rfl)]
  simp only [List.flatMap_cons, List.flatMap_nil, List.append_nil]
  rw [if_neg (by simp [h1, h2, h3])]
  rw [fieldConds]
  simp only
  rw [foldl_fieldStep_ranges (metaFieldName field) valueMap ⟨[], [], none⟩ h5]
  simp [h4]

/-- Witness for the amended claim C4 at the gte-and-lte score mapping. -/
theorem range_fold_per_field_mapping_witness :
    (("score" : String) ≠ "$and" ∧ ([("$gte", JVal.int 90), ("$lte", JVal.int 100)] :
        List (String × JVal)) ≠ [])
    ∧ buildMetadataFilterConditions
        [("score", JVal.obj [("$gte", JVal.int 90), ("$lte", JVal.int 100)])] =
      [JVal.obj [("range", JVal.obj [(metaFieldName "score",
        JVal.obj [("gte", JVal.int 90), ("lte", JVal.int 100)])])]] :=
  ⟨⟨by decide, by simp⟩,
    range_fold_per_field_mapping "score" [("$gte", JVal.int 90), ("$lte", JVal.int 100)]
      (by decide) (by decide) (by decide) (by simp) (by decide)⟩

/-- Claim C7 as stated is false at the empty in-list: the descriptor compiler
emits no clause at all (not one should clause with zero terms) and the SQL
compiler rejects the empty list as an InvalidFilter error. -/
theorem empty_in_counterexample :
    buildMetadataFilterConditions [("tag", JVal.obj [("$in", JVal.arr [])])] = []
    ∧ buildMetadataFilterConditions [("tag", JVal.obj [("$in", JVal.arr [])])] ≠
        [JVal.obj [("bool", JVal.obj [("should", JVal.arr [])])]]
    ∧ buildMetadataFilterSQL (FilterNode.inList "tag" []) =
        Except.error (QErr.invalidFilter "empty list for $in operator") :=
  ⟨rfl, ne_of_jeqL_false rfl, rfl⟩

/-- Claim C7 (amended): for every in-condition over a non-empty list of
length n, the SQL compiler emits the n list elements as its bound arguments
in list order (one placeholder each), and the descriptor compiler emits
exactly one bool/should clause containing one term clause per list element in
list order. -/
theorem in_list_compilation (field : String) (vs : List JVal)
    (h1 : field ≠ "$and") (h2 : field ≠ "$or") (h3 : field ≠ "$not") (h4 : vs ≠ []) :
    buildMetadataFilterConditions [(field, JVal.obj [("$in", JVal.arr vs)])] =
      [JVal.obj [("bool", JVal.obj [("should", JVal.arr (vs.map (fun v =>
        JVal.obj [("term", JVal.obj [(metaFieldName field, v)])])))])]]
    ∧ buildMetadataFilterSQL (FilterNode.inList field vs) =
        Except.ok (sqlJsonField field ++ " IN (" ++
          joinSep ", " (vs.map (fun _ => "?")) ++ ")", vs)
    ∧ countQ (joinSep ", " (vs.map (fun _ => "?"))) = vs.length := by
  refine ⟨?_, ?_, countQ_placeholders vs⟩
  · rw [bmfc_noLogical _ (by rw [lookupF_cons_ne _ _ h1]; rfl)
        (by rw [lookupF_cons_ne _ _ h2]; rfl) (by rw [lookupF_cons_ne _ _ h3]; rfl)]
    simp only [List.flatMap_cons, List.flatMap_nil, List.append_nil]
    rw [if_neg (by simp [h1, h2, h3])]
    rw [fieldConds]
    simp [fieldStep, h4]
  · rw [buildMetadataFilterSQL]
    rw [if_neg (by simp [h4])]

/-- Witness for the amended claim C7 at a two-element in-list. -/
theorem in_list_compilation_witness :
    (("tag" : String) ≠ "$and" ∧ ([JVal.str "ml", JVal.str "python"] : List JVal) ≠ [])
    ∧ buildMetadataFilterConditions [("tag", JVal.obj
        [("$in", JVal.arr [JVal.str "ml", JVal.str "python"])])] =
      [JVal.obj [("bool", JVal.obj [("should", JVal.arr
        [JVal.obj [("term", JVal.obj [(metaFieldName "tag", JVal.str "ml")])],
         JVal.obj [("term", JVal.obj [(metaFieldName "tag", JVal.str "python")])]])])]]
    ∧ countQ (joinSep ", " (([JVal.str "ml", JVal.str "python"] : List JVal).map
        (fun _ => "?"))) = 2 :=
  ⟨⟨by decide, by simp⟩,
    (in_list_compilation "tag" [JVal.str "ml", JVal.str "python"]
      (by decide) (by decide) (by decide) (by simp)).1,
    (in_list_compilation "tag" [JVal.str "ml", JVal.str "python"]
      (by decide) (by decide) (by decide) (by simp)).2.2⟩

/-- Claim C8 (amended): the builder enforces no at-least-one-section
invariant; with both the query and the knn arguments absent it succeeds, and
the produced request contains neither a query nor a knn key (only the
optional size and rank entries). -/
theorem section_presence (rank : Option HybridSearchRank) (n : Int)
    (f : Option EmbedFunc) :
    ∃ parm, buildSearchParm none none rank n f = Except.ok parm
      ∧ lookupF parm "query" = none ∧ lookupF parm "knn" = none := by
  refine ⟨sizeRankTail [] n rank, rfl, ?_, ?_⟩ <;>
  · unfold sizeRankTail
    rcases rank with _ | r
    · by_cases hn : n > 0 <;> simp [hn, lookupF]
    · rcases r with ⟨_ | rrf⟩ <;>
        by_cases hn : n > 0 <;>
          simp [hn, lookupF_append, lookupF]

theorem extractContains_map (subs : List String) :
    extractContains (subs.map (fun s => JVal.obj [("$contains", JVal.str s)])) = subs := by
  induction subs with
  | nil => rfl
  | cons s tl ih =>
    rw [List.map_cons,
        show extractContains (JVal.obj [("$contains", JVal.str s)] ::
          tl.map (fun s => JVal.obj [("$contains", JVal.str s)])) =
          s :: extractContains (tl.map (fun s => JVal.obj [("$contains", JVal.str s)]))
          from rfl,
        ih]

theorem buildDocumentQuery_and (L : List JVal) :
    buildDocumentQuery [("$and", JVal.arr L)] =
      (match (if (extractContains L).isEmpty then none
              else some (queryStringDoc (JVal.str (joinSep " " (extractContains L))))) with
       | some r => some r
       | none => none) := rfl

theorem buildDocumentQuery_or (L : List JVal) :
    buildDocumentQuery [("$or", JVal.arr L)] =
      (if (extractContains L).isEmpty then none
       else some (queryStringDoc (JVal.str (joinSep " OR " (extractContains L))))) := rfl

/-- Claim C6: a document filter that is an and over contains conditions
compiles to one query_string clause over the document field whose query text
is the substrings joined by single spaces; an or over contains conditions
compiles to one query_string clause joined by the OR token. -/
theorem contains_join_semantics (subs : List String) (h : subs ≠ []) :
    buildDocumentQuery [("$and", JVal.arr (subs.map (fun s =>
        JVal.obj [("$contains", JVal.str s)])))] =
      some (queryStringDoc (JVal.str (joinSep " " subs)))
    ∧ buildDocumentQuery [("$or", JVal.arr (subs.map (fun s =>
        JVal.obj [("$contains", JVal.str s)])))] =
      some (queryStringDoc (JVal.str (joinSep " OR " subs))) := by
  have hempty : subs.isEmpty = false := by
    cases subs with
    | nil => exact absurd rfl h
    | cons a l => rfl
  constructor
  · rw [buildDocumentQuery_and, extractContains_map, hempty]
    rfl
  · rw [buildDocumentQuery_or, extractContains_map, hempty]
    rfl

/-- Witness for claim C6 at the two-substring document filters. -/
theorem contains_join_semantics_witness :
    (["machine", "learning"] : List String) ≠ []
    ∧ buildDocumentQuery [("$and", JVal.arr
        [JVal.obj [("$contains", JVal.str "machine")],
         JVal.obj [("$contains", JVal.str "learning")]])] =
        some (queryStringDoc (JVal.str "machine learning"))
    ∧ buildDocumentQuery [("$or", JVal.arr
        [JVal.obj [("$contains", JVal.str "machine")],
         JVal.obj [("$contains", JVal.str "learning")]])] =
        some (queryStringDoc (JVal.str "machine OR learning")) :=
  ⟨by decide,
   (contains_join_semantics ["machine", "learning"] (by decide)).1,
   (contains_join_semantics ["machine", "learning"] (by decide)).2⟩

/-- Claim C5: a hybrid-search call whose knn carries query texts but no
precomputed embeddings, with no embedding function configured, fails with the
EmbeddingFunctionRequired error, both at the knn-expression builder and at
the full request builder; no request with an absent or empty query vector is
produced. -/
theorem embedding_function_required (texts : List String) (w : Filter) (n : Int)
    (q : Option HybridSearchQuery) (rank : Option HybridSearchRank) (sz : Int)
    (h : texts ≠ []) :
    buildKNNExpression ⟨texts, [], w, n⟩ none =
      Except.error QErr.embeddingFunctionRequired
    ∧ buildSearchParm q (some ⟨texts, [], w, n⟩) rank sz none =
        Except.error QErr.embeddingFunctionRequired := by
  obtain ⟨t, ts, rfl⟩ : ∃ t ts, texts = t :: ts := by
    cases texts with
    | nil => exact absurd rfl h
    | cons t ts => exact ⟨t, ts, rfl⟩
  exact ⟨rfl, rfl⟩

/-- Witness for claim C5 at a one-text knn with no embedding function. -/
theorem embedding_function_required_witness :
    (["x"] : List String) ≠ []
    ∧ buildSearchParm none (some ⟨["x"], [], [], 10⟩) none 10 none =
        Except.error QErr.embeddingFunctionRequired :=
  ⟨by decide, (embedding_function_required ["x"] [] 10 none none 10 (by decide)).2⟩

/-- Claim C9: a nil or empty filter compiles to no predicate on both paths:
the modelled SQL compiler maps the absent filter to the empty clause with the
empty argument list, collectionGet with no ids and no filters emits the
statement with an empty where slot (no WHERE keyword anywhere in the
statement), and the descriptor path maps the empty filter to the absent
(empty) condition list. -/
theorem empty_filter_no_predicate :
    buildMetadataFilterSQLOpt none = Except.ok ("", [])
    ∧ (∀ (name : String) (limit off : Int),
        collectionGetQuery name [] ⟨none, none, limit, off⟩ =
          Except.ok (getQuerySQL (getTableName name) "",
            [JVal.int (if limit == 0 then 1000 else limit), JVal.int off]))
    ∧ buildMetadataFilterForSearchParm [] = []
    ∧ ¬ ("WHERE".data <:+: (getQuerySQL (getTableName "test") "").data) :=
  ⟨rfl, fun name limit off => rfl, rfl, by
    set_option maxRecDepth 4000 in decide⟩

/-- Claim C10: a Get whose options leave the limit at zero compiles exactly
as a Get with limit 1000 (the default), so the last-but-one argument is the
literal 1000 and a caller cannot distinguish an explicit zero limit from the
default. -/
theorem default_limit (name : String) (ids : List String)
    (w : Option FilterNode) (d : Option DocumentFilterNode) (off : Int) :
    collectionGetQuery name ids ⟨w, d, 0, off⟩ =
      collectionGetQuery name ids ⟨w, d, 1000, off⟩
    ∧ lastArgsAre (collectionGetQuery name ids ⟨w, d, 0, off⟩) 1000 off := by
  unfold collectionGetQuery
  cases h1 : filterPartMeta w with
  | error e =>
    simp only [h1]
    exact ⟨trivial, trivial⟩
  | ok mp =>
    obtain ⟨mConds, mArgs⟩ := mp
    cases h2 : filterPartDoc d with
    | error e =>
      simp only [h1, h2]
      exact ⟨trivial, trivial⟩
    | ok dp =>
      obtain ⟨dConds, dArgs⟩ := dp
      simp only [h1, h2]
      refine ⟨by norm_num, ?_⟩
      simp only [lastArgsAre]
      norm_num
      refine ⟨(if ids = [] then ([], [])
        else ([idInClause ids], List.map JVal.str ids)).2 ++ (mArgs ++ dArgs), ?_⟩
      simp

end SeekDB
